import Mathlib

/-!
Verification of the Fate-Unreal-Risk bot against its specification.

The relevant program logic lives in `src/bot.py` (battle simulation, ELO,
command-level guards) and `src/database.py` (economy, progression, missions,
equipment).  Pure computations are embedded directly; database-mutating
functions are embedded as explicit state-passing functions on record types
that mirror the relevant table rows.
-/

/-- Python `int()` applied to a rational value: truncation toward zero
(`int(2.7) = 2`, `int(-2.7) = -2`). -/
def pyIntQ (x : ℚ) : ℤ := if 0 ≤ x then ⌊x⌋ else ⌈x⌉

/- ============================================================================
   Summon base stats (`database.add_summon`, src/database.py lines 507-545)
   ============================================================================ -/

/-- The per-rank multiplier table of `add_summon`
(`rank_multipliers.get(rank, 1.0)`).  The Python float literals 2.0, 1.6,
1.3, 1.0, 0.7 are modelled as exact rationals; each product `100*m`,
`1000*m`, `50*m` used below evaluates in binary64 arithmetic to exactly the
same integer as in exact rational arithmetic (all five products of each
baseline round to whole floats), so the rational model is exact here. -/
def rank_multiplier (rank : String) : ℚ :=
  if rank = "EX" then 2
  else if rank = "S" then 8/5
  else if rank = "A" then 13/10
  else if rank = "B" then 1
  else if rank = "C" then 7/10
  else 1

/-- The four base stats of a freshly summoned servant. -/
structure BaseStats where
  attack : ℤ
  defense : ℤ
  hp : ℤ
  speed : ℤ
deriving DecidableEq

/-- Base-stat computation of `add_summon`:
`base_attack = int(100 * multiplier)`, `base_defense = int(100 * multiplier)`,
`base_hp = int(1000 * multiplier)`, `base_speed = int(50 * multiplier)`. -/
def summonBaseStats (rank : String) : BaseStats :=
  let m := rank_multiplier rank
  { attack := pyIntQ (100 * m)
    defense := pyIntQ (100 * m)
    hp := pyIntQ (1000 * m)
    speed := pyIntQ (50 * m) }

/- ============================================================================
   Experience and level-ups (`database.add_experience`, lines 601-645)
   ============================================================================ -/

/-- Mutable servant row fields touched by `add_experience`. -/
structure Servant where
  level : ℕ
  experience : ℕ
  base_attack : ℤ
  base_defense : ℤ
  base_hp : ℤ
  base_speed : ℤ
deriving DecidableEq

/-- The level-up loop of `add_experience`:
`while new_exp >= (current_level * 100) and current_level < 100:` subtract the
threshold, increment the level, and add 2 to `total_stats_gained`.
Returns `(current_level, new_exp, total_stats_gained)`.

The Python loop terminates because the level strictly increases and the loop
requires `current_level < 100`; it therefore runs at most `100 - level`
iterations.  We model it by structural recursion on a fuel argument;
`levelUpLoop_fuel_free` shows any fuel of at least `100 - level` (in
particular the fuel 100 used by `add_experience`) gives the same result, so
the fuel is not observable. -/
def levelUpLoop : ℕ → ℕ → ℕ → ℕ × ℕ × ℕ
  | 0, level, exp => (level, exp, 0)
  | fuel + 1, level, exp =>
    if exp ≥ level * 100 ∧ level < 100 then
      let r := levelUpLoop fuel (level + 1) (exp - level * 100)
      (r.1, r.2.1, r.2.2 + 2)
    else
      (level, exp, 0)

/-- `add_experience`: accumulate the experience, run the level-up loop, and
(when levels were gained) add the stat points to the base stats:
`base_attack + gained`, `base_defense + gained`, `base_hp + gained * 10`,
`base_speed + gained`.  When no level was gained only the experience changes,
which coincides with adding the zero `gained`. -/
def add_experience (s : Servant) (exp : ℕ) : Servant :=
  let r := levelUpLoop 100 s.level (s.experience + exp)
  let gained : ℤ := r.2.2
  { level := r.1
    experience := r.2.1
    base_attack := s.base_attack + gained
    base_defense := s.base_defense + gained
    base_hp := s.base_hp + gained * 10
    base_speed := s.base_speed + gained }

/- ============================================================================
   Daily reward (`database.claim_daily_reward`, lines 448-494)
   ============================================================================ -/

/-- `claim_daily_reward`, with calendar dates modelled as day ordinals (ℤ):
`lastClaim` is the stored `last_daily_claim` date (none when NULL),
`prevStreak` the stored `current_streak` (the code reads it with `or 0`),
`today` the current date.  Returns `none` when already claimed today,
otherwise `some (sq_reward, ticket_reward, new_streak)`; the code performs
its UPDATE exactly in the `some` case. -/
def claim_daily_reward (lastClaim : Option ℤ) (prevStreak : ℤ) (today : ℤ) :
    Option (ℤ × ℤ × ℤ) :=
  if lastClaim = some today then none
  else
    let streak :=
      match lastClaim with
      | some d =>
        if today - d = 1 then prevStreak + 1
        else if today - d > 1 then 1
        else prevStreak
      | none => 1
    let sq_reward := 30 + min streak 7 * 5
    let ticket_reward : ℤ := if streak % 3 = 0 then 1 else 0
    some (sq_reward, ticket_reward, streak)

/- ============================================================================
   Mission claiming (`database.claim_mission_reward`, lines 1055-1085)
   ============================================================================ -/

/-- Today's `user_mission_progress` row for one (member, mission) pair. -/
structure MissionProgress where
  progress : ℤ
  completed : Bool
  claimed : Bool
deriving DecidableEq

/-- The currency columns of a `users` row. -/
structure Wallet where
  sq : ℤ
  tickets : ℤ
deriving DecidableEq

/-- `update_user_currency`: unconditional addition of the two deltas
(no guard, no clamping). -/
def update_user_currency (w : Wallet) (sq_change tickets_change : ℤ) : Wallet :=
  { sq := w.sq + sq_change, tickets := w.tickets + tickets_change }

/-- `claim_mission_reward`: the SELECT filters on
`completed = TRUE AND claimed = FALSE` (today's row); when no row matches it
returns None and performs no update, otherwise it credits the mission's
rewards and sets `claimed = TRUE`.
Input `row` is today's progress row (none when absent); returns
`(returned reward, new row, new wallet)`. -/
def claim_mission_reward (row : Option MissionProgress)
    (sq_reward ticket_reward : ℤ) (w : Wallet) :
    Option (ℤ × ℤ) × Option MissionProgress × Wallet :=
  match row with
  | some p =>
    if p.completed = true ∧ p.claimed = false then
      (some (sq_reward, ticket_reward),
       some { p with claimed := true },
       update_user_currency w sq_reward ticket_reward)
    else (none, some p, w)
  | none => (none, none, w)

/- ============================================================================
   Helper lemmas for the level-up loop
   ============================================================================ -/

/-- Any two fuels that are at least `100 - level` give the same loop result:
the fuel is an artifact of the embedding, not observable behaviour. -/
theorem levelUpLoop_fuel_free (f g level exp : ℕ)
    (hf : 100 - level ≤ f) (hg : 100 - level ≤ g) :
    levelUpLoop f level exp = levelUpLoop g level exp := by
  induction f generalizing g level exp with
  | zero =>
    have hlevel : 100 ≤ level := by omega
    cases g with
    | zero => rfl
    | succ g =>
      simp only [levelUpLoop]
      rw [if_neg]
      omega
  | succ f ih =>
    cases g with
    | zero =>
      have hlevel : 100 ≤ level := by omega
      simp only [levelUpLoop]
      rw [if_neg]
      omega
    | succ g =>
      simp only [levelUpLoop]
      by_cases h : exp ≥ level * 100 ∧ level < 100
      · rw [if_pos h, if_pos h, ih g (level + 1) (exp - level * 100) (by omega) (by omega)]
      · rw [if_neg h, if_neg h]

/-- The loop never decreases the level. -/
theorem levelUpLoop_level_le (f level exp : ℕ) :
    level ≤ (levelUpLoop f level exp).1 := by
  induction f generalizing level exp with
  | zero => simp [levelUpLoop]
  | succ f ih =>
    simp only [levelUpLoop]
    by_cases h : exp ≥ level * 100 ∧ level < 100
    · rw [if_pos h]
      exact le_trans (by omega) (ih (level + 1) (exp - level * 100))
    · rw [if_neg h]

/-- The loop caps the level at 100: it never pushes a level that is ≤ 100
above 100. -/
theorem levelUpLoop_level_cap (f level exp : ℕ) (h : level ≤ 100) :
    (levelUpLoop f level exp).1 ≤ 100 := by
  induction f generalizing level exp with
  | zero => simpa [levelUpLoop]
  | succ f ih =>
    simp only [levelUpLoop]
    by_cases hc : exp ≥ level * 100 ∧ level < 100
    · rw [if_pos hc]
      exact ih (level + 1) (exp - level * 100) (by omega)
    · rw [if_neg hc]
      simpa

/-- The stat points gained are exactly 2 per level gained. -/
theorem levelUpLoop_stats_gained (f level exp : ℕ) :
    (levelUpLoop f level exp).2.2 = 2 * ((levelUpLoop f level exp).1 - level) := by
  induction f generalizing level exp with
  | zero => simp [levelUpLoop]
  | succ f ih =>
    simp only [levelUpLoop]
    by_cases h : exp ≥ level * 100 ∧ level < 100
    · rw [if_pos h]
      dsimp only
      have hle := levelUpLoop_level_le f (level + 1) (exp - level * 100)
      have := ih (level + 1) (exp - level * 100)
      omega
    · rw [if_neg h]
      simp

/-- Given enough fuel (the Python loop always has it), at exit either the
remaining experience is below the threshold of the resulting level or the
level has hit the 100 cap. -/
theorem levelUpLoop_exit (f level exp : ℕ) (hf : 100 - level ≤ f) :
    (levelUpLoop f level exp).2.1 < (levelUpLoop f level exp).1 * 100 ∨
      100 ≤ (levelUpLoop f level exp).1 := by
  induction f generalizing level exp with
  | zero =>
    have : 100 ≤ level := by omega
    simp only [levelUpLoop]
    omega
  | succ f ih =>
    simp only [levelUpLoop]
    by_cases h : exp ≥ level * 100 ∧ level < 100
    · rw [if_pos h]
      exact ih (level + 1) (exp - level * 100) (by omega)
    · rw [if_neg h]
      simp only []
      omega

/- ============================================================================
   Claim C6
   ============================================================================ -/

/-- Claim C6: for every rarity tier, character creation (`add_summon`) sets
base attack = int(100 × m), base defense = int(100 × m),
base health = int(1000 × m) and base speed = int(50 × m) with the tier
multiplier m ∈ {EX: 2.0, S: 1.6, A: 1.3, B: 1.0, C: 0.7}; consequently each
of the four base stats is strictly decreasing across tiers
EX > S > A > B > C. -/
theorem summon_base_stats_table :
    summonBaseStats "EX" = ⟨200, 200, 2000, 100⟩ ∧
    summonBaseStats "S" = ⟨160, 160, 1600, 80⟩ ∧
    summonBaseStats "A" = ⟨130, 130, 1300, 65⟩ ∧
    summonBaseStats "B" = ⟨100, 100, 1000, 50⟩ ∧
    summonBaseStats "C" = ⟨70, 70, 700, 35⟩ ∧
    ((summonBaseStats "S").attack < (summonBaseStats "EX").attack ∧
     (summonBaseStats "A").attack < (summonBaseStats "S").attack ∧
     (summonBaseStats "B").attack < (summonBaseStats "A").attack ∧
     (summonBaseStats "C").attack < (summonBaseStats "B").attack) ∧
    ((summonBaseStats "S").defense < (summonBaseStats "EX").defense ∧
     (summonBaseStats "A").defense < (summonBaseStats "S").defense ∧
     (summonBaseStats "B").defense < (summonBaseStats "A").defense ∧
     (summonBaseStats "C").defense < (summonBaseStats "B").defense) ∧
    ((summonBaseStats "S").hp < (summonBaseStats "EX").hp ∧
     (summonBaseStats "A").hp < (summonBaseStats "S").hp ∧
     (summonBaseStats "B").hp < (summonBaseStats "A").hp ∧
     (summonBaseStats "C").hp < (summonBaseStats "B").hp) ∧
    ((summonBaseStats "S").speed < (summonBaseStats "EX").speed ∧
     (summonBaseStats "A").speed < (summonBaseStats "S").speed ∧
     (summonBaseStats "B").speed < (summonBaseStats "A").speed ∧
     (summonBaseStats "C").speed < (summonBaseStats "B").speed) := by
  have hEX : summonBaseStats "EX" = ⟨200, 200, 2000, 100⟩ := by
    have m : rank_multiplier "EX" = 2 := rfl
    simp only [summonBaseStats, m, pyIntQ, BaseStats.mk.injEq]
    norm_num
  have hS : summonBaseStats "S" = ⟨160, 160, 1600, 80⟩ := by
    have m : rank_multiplier "S" = 8/5 := rfl
    simp only [summonBaseStats, m, pyIntQ, BaseStats.mk.injEq]
    norm_num
  have hA : summonBaseStats "A" = ⟨130, 130, 1300, 65⟩ := by
    have m : rank_multiplier "A" = 13/10 := rfl
    simp only [summonBaseStats, m, pyIntQ, BaseStats.mk.injEq]
    norm_num
  have hB : summonBaseStats "B" = ⟨100, 100, 1000, 50⟩ := by
    have m : rank_multiplier "B" = 1 := rfl
    simp only [summonBaseStats, m, pyIntQ, BaseStats.mk.injEq]
    norm_num
  have hC : summonBaseStats "C" = ⟨70, 70, 700, 35⟩ := by
    have m : rank_multiplier "C" = 7/10 := rfl
    simp only [summonBaseStats, m, pyIntQ, BaseStats.mk.injEq]
    norm_num
  rw [hEX, hS, hA, hB, hC]
  norm_num

/- ============================================================================
   Claim C2
   ============================================================================ -/

/-- Claim C2: for every existing servant (level between 1 and the cap 100)
and every non-negative experience amount, `add_experience` levels up while
the accumulated experience is at least 100 × currentLevel and
currentLevel < 100; each level gained adds exactly +2 to base attack, base
defense and base speed and +20 to base HP; the resulting level is never
lower than the starting level, and the resulting experience is strictly
less than 100 × resultingLevel unless the resulting level is capped
at 100. -/
theorem add_experience_spec (s : Servant) (exp : ℕ)
    (h1 : 1 ≤ s.level) (h2 : s.level ≤ 100) :
    s.level ≤ (add_experience s exp).level ∧
    (add_experience s exp).level ≤ 100 ∧
    (add_experience s exp).base_attack =
      s.base_attack + 2 * (((add_experience s exp).level - s.level : ℕ) : ℤ) ∧
    (add_experience s exp).base_defense =
      s.base_defense + 2 * (((add_experience s exp).level - s.level : ℕ) : ℤ) ∧
    (add_experience s exp).base_speed =
      s.base_speed + 2 * (((add_experience s exp).level - s.level : ℕ) : ℤ) ∧
    (add_experience s exp).base_hp =
      s.base_hp + 20 * (((add_experience s exp).level - s.level : ℕ) : ℤ) ∧
    ((add_experience s exp).level ≠ 100 →
      (add_experience s exp).experience < 100 * (add_experience s exp).level) := by
  have hle := levelUpLoop_level_le 100 s.level (s.experience + exp)
  have hcap := levelUpLoop_level_cap 100 s.level (s.experience + exp) h2
  have hst := levelUpLoop_stats_gained 100 s.level (s.experience + exp)
  have hex := levelUpLoop_exit 100 s.level (s.experience + exp) (by omega)
  simp only [add_experience]
  refine ⟨hle, hcap, ?_, ?_, ?_, ?_, ?_⟩ <;> omega

/-- Witness for C2: a level-1 servant receiving 250 experience. -/
theorem add_experience_spec_witness :
    1 ≤ (⟨1, 0, 100, 100, 1000, 50⟩ : Servant).level ∧
    (⟨1, 0, 100, 100, 1000, 50⟩ : Servant).level ≤ 100 ∧
    ((⟨1, 0, 100, 100, 1000, 50⟩ : Servant).level ≤
        (add_experience ⟨1, 0, 100, 100, 1000, 50⟩ 250).level ∧
      (add_experience ⟨1, 0, 100, 100, 1000, 50⟩ 250).level ≤ 100 ∧
      (add_experience ⟨1, 0, 100, 100, 1000, 50⟩ 250).base_attack =
        (⟨1, 0, 100, 100, 1000, 50⟩ : Servant).base_attack +
          2 * (((add_experience ⟨1, 0, 100, 100, 1000, 50⟩ 250).level -
            (⟨1, 0, 100, 100, 1000, 50⟩ : Servant).level : ℕ) : ℤ) ∧
      (add_experience ⟨1, 0, 100, 100, 1000, 50⟩ 250).base_defense =
        (⟨1, 0, 100, 100, 1000, 50⟩ : Servant).base_defense +
          2 * (((add_experience ⟨1, 0, 100, 100, 1000, 50⟩ 250).level -
            (⟨1, 0, 100, 100, 1000, 50⟩ : Servant).level : ℕ) : ℤ) ∧
      (add_experience ⟨1, 0, 100, 100, 1000, 50⟩ 250).base_speed =
        (⟨1, 0, 100, 100, 1000, 50⟩ : Servant).base_speed +
          2 * (((add_experience ⟨1, 0, 100, 100, 1000, 50⟩ 250).level -
            (⟨1, 0, 100, 100, 1000, 50⟩ : Servant).level : ℕ) : ℤ) ∧
      (add_experience ⟨1, 0, 100, 100, 1000, 50⟩ 250).base_hp =
        (⟨1, 0, 100, 100, 1000, 50⟩ : Servant).base_hp +
          20 * (((add_experience ⟨1, 0, 100, 100, 1000, 50⟩ 250).level -
            (⟨1, 0, 100, 100, 1000, 50⟩ : Servant).level : ℕ) : ℤ) ∧
      ((add_experience ⟨1, 0, 100, 100, 1000, 50⟩ 250).level ≠ 100 →
        (add_experience ⟨1, 0, 100, 100, 1000, 50⟩ 250).experience <
          100 * (add_experience ⟨1, 0, 100, 100, 1000, 50⟩ 250).level)) :=
  ⟨by decide, by decide,
   add_experience_spec ⟨1, 0, 100, 100, 1000, 50⟩ 250 (by decide) (by decide)⟩

/- ============================================================================
   Claim C5
   ============================================================================ -/

/-- Every non-rejected daily claim returns the reward tuple computed from
the new streak value. -/
theorem claim_daily_reward_shape (lastClaim : Option ℤ) (prevStreak today : ℤ) :
    claim_daily_reward lastClaim prevStreak today = none ∨
    ∃ streak, claim_daily_reward lastClaim prevStreak today =
      some (30 + min streak 7 * 5, if streak % 3 = 0 then 1 else 0, streak) := by
  unfold claim_daily_reward
  split
  · exact Or.inl rfl
  · exact Or.inr ⟨_, rfl⟩

/-- Claim C5: `claim_daily_reward` returns no reward (and the code performs
no UPDATE) when the last claim date equals the current date; otherwise the
new streak is the previous streak + 1 when the last claim was exactly one
calendar day before, and 1 when there is no prior claim or the gap exceeds
one day; the currency reward is 30 + 5 × min(streak, 7) and exactly one
bonus ticket is granted if and only if the new streak is a multiple of 3. -/
theorem claim_daily_reward_spec (lastClaim : Option ℤ) (prevStreak today : ℤ) :
    claim_daily_reward (some today) prevStreak today = none ∧
    (∀ d, today - d = 1 →
      claim_daily_reward (some d) prevStreak today =
        some (30 + min (prevStreak + 1) 7 * 5,
              if (prevStreak + 1) % 3 = 0 then 1 else 0,
              prevStreak + 1)) ∧
    claim_daily_reward none prevStreak today = some (35, 0, 1) ∧
    (∀ d, today - d > 1 →
      claim_daily_reward (some d) prevStreak today = some (35, 0, 1)) ∧
    (∀ sq t st,
      claim_daily_reward lastClaim prevStreak today = some (sq, t, st) →
        sq = 30 + 5 * min st 7 ∧ (t = 1 ↔ st % 3 = 0) ∧ (t = 0 ∨ t = 1)) := by
  refine ⟨by simp [claim_daily_reward], ?_, ?_, ?_, ?_⟩
  · intro d hd
    have h1 : ¬(some d = some (α := ℤ) today) := by simp; omega
    simp only [claim_daily_reward, if_neg h1, hd]
    norm_num
  · simp [claim_daily_reward]
  · intro d hd
    have h1 : ¬(some d = some (α := ℤ) today) := by simp; omega
    have h2 : ¬(today - d = 1) := by omega
    simp only [claim_daily_reward, if_neg h1, if_neg h2, if_pos hd]
    norm_num
  · intro sq t st h
    rcases claim_daily_reward_shape lastClaim prevStreak today with hn | ⟨st0, hs⟩
    · rw [hn] at h
      exact absurd h (by simp)
    · rw [hs] at h
      obtain ⟨h1, h2, h3⟩ :
          30 + min st0 7 * 5 = sq ∧
            (if st0 % 3 = 0 then (1 : ℤ) else 0) = t ∧ st0 = st := by
        simpa using h
      subst h3
      refine ⟨by rw [← h1]; ring, ?_, ?_⟩
      · rw [← h2]
        split <;> rename_i hm
        · simp [hm]
        · simp [hm]
      · rw [← h2]
        split <;> simp

/-- Witness for C5: last claim one day ago with streak 2 yields streak 3,
45 saint quartz and the every-third-day bonus ticket. -/
theorem claim_daily_reward_spec_witness :
    claim_daily_reward (some 5) 2 6 = some (45, 1, 3) := by
  have h := (claim_daily_reward_spec (some 5) 2 6).2.1 5 (by norm_num)
  norm_num at h
  exact h

/- ============================================================================
   Claim C7
   ============================================================================ -/

/-- Claim C7: `claim_mission_reward` succeeds (returning the mission's
rewards and crediting them) exactly when today's progress row exists with
completed = true and claimed = false; a successful claim sets
claimed = true, and every subsequent claim attempt for the same mission and
day returns failure (None) without changing any state. -/
theorem claim_mission_reward_spec (row : Option MissionProgress)
    (sqR tR : ℤ) (w : Wallet) :
    ((claim_mission_reward row sqR tR w).1 ≠ none ↔
      ∃ p, row = some p ∧ p.completed = true ∧ p.claimed = false) ∧
    (∀ p, row = some p → p.completed = true → p.claimed = false →
      claim_mission_reward row sqR tR w =
        (some (sqR, tR), some { p with claimed := true },
         update_user_currency w sqR tR)) ∧
    (∀ r1 row1 w1, claim_mission_reward row sqR tR w = (r1, row1, w1) →
      r1 ≠ none →
      ∀ sqR2 tR2, claim_mission_reward row1 sqR2 tR2 w1 = (none, row1, w1)) := by
  refine ⟨?_, ?_, ?_⟩
  · cases row with
    | none => simp [claim_mission_reward]
    | some p =>
      by_cases hc : p.completed = true ∧ p.claimed = false
      · simp [claim_mission_reward, hc]
      · simp only [claim_mission_reward, if_neg hc]
        simp only [ne_eq, not_true_eq_false, false_iff, not_exists, not_and]
        intro q hq
        obtain rfl : p = q := by injection hq
        intro h1 h2
        exact hc ⟨h1, h2⟩
  · intro p hp h1 h2
    subst hp
    simp [claim_mission_reward, h1, h2]
  · intro r1 row1 w1 h hne sqR2 tR2
    cases row with
    | none => simp [claim_mission_reward] at h; simp [← h.1] at hne
    | some p =>
      by_cases hc : p.completed = true ∧ p.claimed = false
      · simp only [claim_mission_reward, if_pos hc, Prod.mk.injEq] at h
        obtain ⟨-, hrow, -⟩ := h
        rw [← hrow]
        simp [claim_mission_reward]
      · simp only [claim_mission_reward, if_neg hc, Prod.mk.injEq] at h
        simp [← h.1] at hne

/-- Witness for C7: a completed, unclaimed row is claimed once and the
second attempt fails without changing state. -/
theorem claim_mission_reward_spec_witness :
    claim_mission_reward (some ⟨3, true, false⟩) 30 1 ⟨100, 3⟩ =
      (some (30, 1), some ⟨3, true, true⟩, ⟨130, 4⟩) ∧
    claim_mission_reward (some ⟨3, true, true⟩) 30 1 ⟨130, 4⟩ =
      (none, some ⟨3, true, true⟩, ⟨130, 4⟩) := by
  have h := (claim_mission_reward_spec (some ⟨3, true, false⟩) 30 1
    ⟨100, 3⟩).2.1 ⟨3, true, false⟩ rfl rfl rfl
  have h2 := (claim_mission_reward_spec (some ⟨3, true, false⟩) 30 1
    ⟨100, 3⟩).2.2 (some (30, 1)) (some ⟨3, true, true⟩) ⟨130, 4⟩
    (by rw [h]; rfl) (by simp) 30 1
  constructor
  · rw [h]; rfl
  · exact h2

/- ============================================================================
   Economy operations reachable through the program (claim C4)
   ============================================================================ -/

/-- The currency-relevant fields of one (member, community) `users` row.
`rowExists` models whether the row is present at all: `register_user` INSERTs
it with 100 saint quartz and 3 tickets (ON CONFLICT it only re-sets the
registered flag, keeping balances), and `update_user_currency` is a plain
UPDATE that silently does nothing when no row exists. -/
structure EconUser where
  rowExists : Bool
  registered : Bool
  sq : ℤ
  tickets : ℤ
  lastClaim : Option ℤ
  streak : ℤ
deriving DecidableEq

/-- A member with no `users` row yet. -/
def freshEconUser : EconUser :=
  { rowExists := false, registered := false, sq := 0, tickets := 0,
    lastClaim := none, streak := 0 }

/-- The operations of the program that can touch a member's balances.
`buy` carries the item's catalog price and `missionClaim` the mission's
catalog rewards; every item and mission the program creates
(`initialize_default_items`, `initialize_default_missions`) has
non-negative price and rewards, hence the ℕ parameters. `giveCurrency`
carries the two integer command arguments of the admin `/givecurrency`
command, which bounds neither below. -/
inductive EconOp where
  | register
  | summon
  | buy (price : ℕ)
  | daily (today : ℤ)
  | missionClaim (row : Option MissionProgress) (sqReward ticketReward : ℕ)
  | battleWin
  | battleLoss
  | giveCurrency (dsq dtickets : ℤ)

/-- One economy operation, with the guards the code performs before any
mutation:
* `register` (`register_user`): INSERT (100, 3) or, on conflict, only set
  the registered flag;
* `summon` (the `/summon` command): requires registration; spends 1 ticket
  if `tickets > 0`, else 30 saint quartz if `sq >= 30`, else rejects with
  no mutation;
* `buy` (the `/buy` command): requires registration; rejects with no
  mutation unless `sq >= price`;
* `daily` (the `/daily` command): requires registration; applies
  `claim_daily_reward`;
* `missionClaim` (the `/claimmission` command): requires registration;
  applies `claim_mission_reward`, crediting only the wallet part here;
* `battleWin` / `battleLoss` (`complete_battle`): touches elo rating, win
  and loss counters and resets the loser's login streak, but neither
  currency balance;
* `giveCurrency` (the admin `/givecurrency` command): rejected only when
  both amounts are 0, otherwise applied unconditionally via
  `update_user_currency`. -/
def econStep (u : EconUser) : EconOp → EconUser
  | .register =>
    if u.rowExists then { u with registered := true }
    else { u with rowExists := true, registered := true, sq := 100, tickets := 3 }
  | .summon =>
    if u.registered = false then u
    else if u.tickets > 0 then { u with tickets := u.tickets - 1 }
    else if u.sq ≥ 30 then { u with sq := u.sq - 30 }
    else u
  | .buy price =>
    if u.registered = false then u
    else if u.sq ≥ (price : ℤ) then { u with sq := u.sq - (price : ℤ) }
    else u
  | .daily today =>
    if u.registered = false then u
    else
      match claim_daily_reward u.lastClaim u.streak today with
      | none => u
      | some (sqR, tR, newStreak) =>
        { u with sq := u.sq + sqR, tickets := u.tickets + tR,
                 lastClaim := some today, streak := newStreak }
  | .missionClaim row sqReward ticketReward =>
    if u.registered = false then u
    else
      match (claim_mission_reward row (sqReward : ℤ) (ticketReward : ℤ)
          ⟨u.sq, u.tickets⟩).1 with
      | none => u
      | some (sqR, tR) => { u with sq := u.sq + sqR, tickets := u.tickets + tR }
  | .battleWin => u
  | .battleLoss => { u with streak := 0 }
  | .giveCurrency dsq dtickets =>
    if dsq = 0 ∧ dtickets = 0 then u
    else if u.rowExists then
      { u with sq := u.sq + dsq, tickets := u.tickets + dtickets }
    else u

/-- Run a sequence of economy operations. -/
def econRun (u : EconUser) : List EconOp → EconUser
  | [] => u
  | op :: ops => econRun (econStep u op) ops

/-- The reward component of `claim_mission_reward` is either absent or
exactly the mission's catalog rewards. -/
theorem claim_mission_reward_fst (row : Option MissionProgress)
    (sqR tR : ℤ) (w : Wallet) :
    (claim_mission_reward row sqR tR w).1 = none ∨
    (claim_mission_reward row sqR tR w).1 = some (sqR, tR) := by
  cases row with
  | none => exact Or.inl rfl
  | some p =>
    by_cases hc : p.completed = true ∧ p.claimed = false
    · exact Or.inr (by simp [claim_mission_reward, hc])
    · exact Or.inl (by simp [claim_mission_reward, hc])

/-- When the previous streak is non-negative, a granted daily reward has
non-negative saint quartz, ticket count and resulting streak. -/
theorem claim_daily_reward_bounds (lastClaim : Option ℤ) (prevStreak today : ℤ)
    (h : 0 ≤ prevStreak) (sqR tR st : ℤ)
    (hh : claim_daily_reward lastClaim prevStreak today = some (sqR, tR, st)) :
    0 ≤ sqR ∧ 0 ≤ tR ∧ 0 ≤ st := by
  have hst : 0 ≤ st := by
    unfold claim_daily_reward at hh
    split at hh
    · simp at hh
    · simp only [Option.some.injEq, Prod.mk.injEq] at hh
      obtain ⟨-, -, h3⟩ := hh
      rw [← h3]
      cases lastClaim with
      | none => norm_num
      | some d => dsimp only; split_ifs <;> omega
  rcases claim_daily_reward_shape lastClaim prevStreak today with hn | ⟨st0, hs⟩
  · rw [hn] at hh
    exact absurd hh (by simp)
  · rw [hs] at hh
    obtain ⟨h1, h2, h3⟩ :
        30 + min st0 7 * 5 = sqR ∧
          (if st0 % 3 = 0 then (1 : ℤ) else 0) = tR ∧ st0 = st := by
      simpa using hh
    subst h3
    have hmin : (0 : ℤ) ≤ min st0 7 := le_min hst (by norm_num)
    refine ⟨by linarith, ?_, hst⟩
    rw [← h2]
    split <;> norm_num

/-- One economy step preserves non-negativity of both balances and of the
streak counter, provided an admin `giveCurrency` step carries non-negative
amounts. -/
theorem econStep_preserves (u : EconUser) (op : EconOp)
    (h0 : 0 ≤ u.sq) (h1 : 0 ≤ u.tickets) (h2 : 0 ≤ u.streak)
    (hop : ∀ d t, op = .giveCurrency d t → 0 ≤ d ∧ 0 ≤ t) :
    0 ≤ (econStep u op).sq ∧ 0 ≤ (econStep u op).tickets ∧
      0 ≤ (econStep u op).streak := by
  cases op with
  | register =>
    simp only [econStep]
    split <;> refine ⟨?_, ?_, ?_⟩ <;> (try simp) <;> omega
  | summon =>
    simp only [econStep]
    split_ifs with hr ht hs <;> refine ⟨?_, ?_, ?_⟩ <;> (try simp) <;> omega
  | buy price =>
    simp only [econStep]
    split_ifs with hr hp <;> refine ⟨?_, ?_, ?_⟩ <;> (try simp) <;> omega
  | daily today =>
    simp only [econStep]
    split
    · exact ⟨h0, h1, h2⟩
    · rcases hcd : claim_daily_reward u.lastClaim u.streak today with - | ⟨sqR, tR, st⟩
      · simp only [hcd]
        exact ⟨h0, h1, h2⟩
      · simp only [hcd]
        obtain ⟨hb1, hb2, hb3⟩ :=
          claim_daily_reward_bounds u.lastClaim u.streak today h2 sqR tR st hcd
        refine ⟨?_, ?_, ?_⟩ <;> (try simp) <;> omega
  | missionClaim row sqReward ticketReward =>
    simp only [econStep]
    split
    · exact ⟨h0, h1, h2⟩
    · rcases claim_mission_reward_fst row (sqReward : ℤ) (ticketReward : ℤ)
        ⟨u.sq, u.tickets⟩ with hm | hm
      · simp only [hm]
        exact ⟨h0, h1, h2⟩
      · simp only [hm]
        refine ⟨?_, ?_, ?_⟩ <;> (try simp) <;> omega
  | battleWin => exact ⟨h0, h1, h2⟩
  | battleLoss => exact ⟨h0, h1, by simp [econStep]⟩
  | giveCurrency dsq dtickets =>
    simp only [econStep]
    obtain ⟨hd, ht⟩ := hop dsq dtickets rfl
    split_ifs <;> refine ⟨?_, ?_, ?_⟩ <;> (try simp) <;> omega

/-- Along any operation sequence whose admin `giveCurrency` steps carry
non-negative amounts, both balances (and the streak) stay non-negative. -/
theorem econRun_preserves (u : EconUser) (ops : List EconOp)
    (h0 : 0 ≤ u.sq) (h1 : 0 ≤ u.tickets) (h2 : 0 ≤ u.streak)
    (hops : ∀ op ∈ ops, ∀ d t, op = .giveCurrency d t → 0 ≤ d ∧ 0 ≤ t) :
    0 ≤ (econRun u ops).sq ∧ 0 ≤ (econRun u ops).tickets ∧
      0 ≤ (econRun u ops).streak := by
  induction ops generalizing u with
  | nil => exact ⟨h0, h1, h2⟩
  | cons op ops ih =>
    simp only [econRun]
    have hstep := econStep_preserves u op h0 h1 h2
      (hops op (List.mem_cons_self op ops))
    exact ih (econStep u op) hstep.1 hstep.2.1 hstep.2.2
      (fun o ho => hops o (List.mem_cons_of_mem op ho))

/- ============================================================================
   Claim C4
   ============================================================================ -/

/-- Counterexample to claim C4 as stated: the admin `/givecurrency` command
(listed by the claim among the program's operations) only rejects when both
amounts are zero, so after registration (balance 100 saint quartz) an admin
give of −200 saint quartz drives the balance to −100 < 0. -/
theorem economy_nonneg_counterexample :
    (econRun freshEconUser [.register, .giveCurrency (-200) 0]).sq = -100 ∧
    (econRun freshEconUser [.register, .giveCurrency (-200) 0]).sq < 0 := by
  exact ⟨rfl, by decide⟩

/-- Claim C4, amended: for every member economy record reachable through
the program's operations in which every admin give-currency step carries
non-negative amounts, the saint-quartz and ticket balances are never
negative; a purchase or summon that would drive a balance negative is
rejected before any mutation (unconditionally).  Admin give-currency with a
negative amount exceeding the balance does drive it negative
(`economy_nonneg_counterexample`). -/
theorem economy_nonneg_amended (u : EconUser) (ops : List EconOp)
    (h0 : 0 ≤ u.sq) (h1 : 0 ≤ u.tickets) (h2 : 0 ≤ u.streak)
    (hops : ∀ op ∈ ops, ∀ d t, op = .giveCurrency d t → 0 ≤ d ∧ 0 ≤ t) :
    (0 ≤ (econRun u ops).sq ∧ 0 ≤ (econRun u ops).tickets) ∧
    (∀ v : EconUser, v.tickets ≤ 0 → v.sq < 30 → econStep v .summon = v) ∧
    (∀ (v : EconUser) (price : ℕ), v.sq < (price : ℤ) →
      econStep v (.buy price) = v) := by
  refine ⟨⟨(econRun_preserves u ops h0 h1 h2 hops).1,
           (econRun_preserves u ops h0 h1 h2 hops).2.1⟩, ?_, ?_⟩
  · intro v hvt hvs
    simp only [econStep]
    split_ifs with hr ht hs <;> first | rfl | omega
  · intro v price hvp
    simp only [econStep]
    split_ifs with hr hp <;> first | rfl | omega

/-- Witness for C4 (amended): a registration followed by a summon and a
daily claim keeps balances non-negative. -/
theorem economy_nonneg_amended_witness :
    0 ≤ freshEconUser.sq ∧ 0 ≤ freshEconUser.tickets ∧ 0 ≤ freshEconUser.streak ∧
    ((0 ≤ (econRun freshEconUser [.register, .summon, .daily 0]).sq ∧
      0 ≤ (econRun freshEconUser [.register, .summon, .daily 0]).tickets) ∧
     (∀ v : EconUser, v.tickets ≤ 0 → v.sq < 30 → econStep v .summon = v) ∧
     (∀ (v : EconUser) (price : ℕ), v.sq < (price : ℤ) →
       econStep v (.buy price) = v)) :=
  ⟨by decide, by decide, by decide,
   economy_nonneg_amended freshEconUser [.register, .summon, .daily 0]
     (by decide) (by decide) (by decide)
     (by
       intro op hop d t hdt
       subst hdt
       simp at hop)⟩

/- ============================================================================
   Equipment (`database.equip_item` lines 749-770, the `/equip` command in
   src/bot.py lines 1080-1140)
   ============================================================================ -/

/-- One row of the `equipped_items` table (`id` is the SERIAL key). -/
structure EquipRow where
  id : ℕ
  servant_id : ℕ
  item_id : ℕ
  slot_type : String
deriving DecidableEq

/-- Catalog fields of an item used by the equip flow. -/
structure Item where
  id : ℕ
  item_type : String
deriving DecidableEq

/-- One row of the `inventory` table (community fixed); rows with quantity 0
are deleted by `remove_item_from_inventory`, so presence of a row means at
least one copy is owned. -/
structure InventoryRow where
  user_id : ℕ
  item_id : ℕ
  quantity : ℕ
deriving DecidableEq

/-- The state touched by the equip flow: the inventory table, the
equipped-items table, and the next SERIAL id. -/
structure EquipState where
  inventory : List InventoryRow
  equipped : List EquipRow
  nextEquipId : ℕ
deriving DecidableEq

/-- `database.equip_item`: SELECT the id of an existing row for
(servant, slot) — the first match; DELETE it if present; INSERT the new
link.  The inventory table is never touched. -/
def equip_item (s : EquipState) (servantId itemId : ℕ) (slot : String) :
    EquipState :=
  let existing := s.equipped.find?
    (fun r => r.servant_id == servantId && r.slot_type == slot)
  let remaining := match existing with
    | some r => s.equipped.filter (fun q => q.id != r.id)
    | none => s.equipped
  { s with
    equipped := remaining ++ [⟨s.nextEquipId, servantId, itemId, slot⟩]
    nextEquipId := s.nextEquipId + 1 }

/-- The `/equip` command: verifies the servant exists and is owned by the
caller, the item exists, and the caller's inventory contains a row for the
item (`any(i['id'] == item['id'] ...)`), then calls `equip_item` with the
item's `item_type` as the slot.  It never removes anything from the
inventory.  Returns the new state and whether the equip happened. -/
def equip (s : EquipState) (userId servantId : ℕ) (servantOwner : Option ℕ)
    (item : Option Item) : EquipState × Bool :=
  match servantOwner with
  | none => (s, false)
  | some owner =>
    if owner ≠ userId then (s, false)
    else
      match item with
      | none => (s, false)
      | some it =>
        if s.inventory.any (fun r => r.user_id == userId && r.item_id == it.id)
        then (equip_item s servantId it.id it.item_type, true)
        else (s, false)

/-- Well-formedness of the SERIAL ids of the equipped-items table. -/
def idsOk (s : EquipState) : Prop :=
  (∀ r ∈ s.equipped, r.id < s.nextEquipId) ∧
  s.equipped.Pairwise (fun a b => a.id ≠ b.id)

/-- Each (servant, slot category) pair holds at most one equipped item. -/
def atMostOnePerSlot (l : List EquipRow) : Prop :=
  ∀ r1 ∈ l, ∀ r2 ∈ l,
    r1.servant_id = r2.servant_id → r1.slot_type = r2.slot_type → r1 = r2

/-- `equip_item` preserves id well-formedness and the one-item-per-slot
invariant. -/
theorem equip_item_invariants (s : EquipState) (servantId itemId : ℕ)
    (slot : String) (hids : idsOk s) (hslots : atMostOnePerSlot s.equipped) :
    idsOk (equip_item s servantId itemId slot) ∧
    atMostOnePerSlot (equip_item s servantId itemId slot).equipped := by
  obtain ⟨hlt, hpw⟩ := hids
  -- the rows kept by the DELETE are rows of the old table
  have hremsub : ∀ r : EquipRow,
      r ∈ (equip_item s servantId itemId slot).equipped →
      r ∈ s.equipped ∨ r = ⟨s.nextEquipId, servantId, itemId, slot⟩ := by
    intro r hr
    simp only [equip_item, List.mem_append, List.mem_singleton] at hr
    rcases hr with hr | hr
    · left
      rcases hfind : s.equipped.find?
          (fun q => q.servant_id == servantId && q.slot_type == slot) with - | q
      · rw [hfind] at hr
        exact hr
      · rw [hfind] at hr
        exact (List.mem_filter.mp hr).1
    · right; exact hr
  -- no row kept by the DELETE still occupies (servantId, slot)
  have hfree : ∀ r : EquipRow,
      r ∈ (equip_item s servantId itemId slot).equipped →
      r ≠ ⟨s.nextEquipId, servantId, itemId, slot⟩ →
      r.servant_id = servantId → r.slot_type = slot → False := by
    intro r hr hne hsv hsl
    simp only [equip_item, List.mem_append, List.mem_singleton] at hr
    rcases hr with hr | hr
    · rcases hfind : s.equipped.find?
          (fun q => q.servant_id == servantId && q.slot_type == slot) with - | q
      · rw [hfind] at hr
        rw [List.find?_eq_none] at hfind
        exact hfind r hr (by simp [hsv, hsl])
      · rw [hfind] at hr
        obtain ⟨hrmem, hrid⟩ := List.mem_filter.mp hr
        have hq : q ∈ s.equipped := List.mem_of_find?_eq_some hfind
        have hqp := List.find?_some hfind
        simp only [Bool.and_eq_true, beq_iff_eq] at hqp
        have : r = q := hslots r hrmem q hq (by rw [hsv, hqp.1]) (by rw [hsl, hqp.2])
        rw [this] at hrid
        simp at hrid
    · exact hne hr
  refine ⟨⟨?_, ?_⟩, ?_⟩
  · intro r hr
    rcases hremsub r hr with h | h
    · have := hlt r h
      simp only [equip_item]
      omega
    · rw [h]
      simp [equip_item]
  · simp only [equip_item]
    rw [List.pairwise_append]
    refine ⟨?_, by simp, ?_⟩
    · rcases hfind : s.equipped.find?
          (fun q => q.servant_id == servantId && q.slot_type == slot) with - | q
      · rw [hfind]
        exact hpw
      · rw [hfind]
        exact hpw.sublist (List.filter_sublist _)
    · intro a ha b hb
      have hamem : a ∈ s.equipped := by
        rcases hfind : s.equipped.find?
            (fun q => q.servant_id == servantId && q.slot_type == slot) with - | q
        · rw [hfind] at ha
          exact ha
        · rw [hfind] at ha
          exact (List.mem_filter.mp ha).1
      have := hlt a hamem
      simp only [List.mem_singleton] at hb
      rw [hb]
      show a.id ≠ s.nextEquipId
      omega
  · intro r1 h1 r2 h2 hsv hsl
    by_cases e1 : r1 = (⟨s.nextEquipId, servantId, itemId, slot⟩ : EquipRow) <;>
      by_cases e2 : r2 = (⟨s.nextEquipId, servantId, itemId, slot⟩ : EquipRow)
    · rw [e1, e2]
    · exact (hfree r2 h2 e2 (by rw [← hsv, e1]) (by rw [← hsl, e1])).elim
    · exact (hfree r1 h1 e1 (by rw [hsv, e2]) (by rw [hsl, e2])).elim
    · rcases hremsub r1 h1 with hm1 | hm1
      · rcases hremsub r2 h2 with hm2 | hm2
        · exact hslots r1 hm1 r2 hm2 hsv hsl
        · exact absurd hm2 e2
      · exact absurd hm1 e1

/- ============================================================================
   Claim C10
   ============================================================================ -/

/-- Claim C10: equipping never modifies the owner's inventory — the
`/equip` command only verifies the item is present and inserts or replaces
the equipped-items link, so (1) the inventory is unchanged, (2) whether the
equip succeeds depends only on the inventory (not on the equipped-items
table), hence a single owned copy can simultaneously be equipped to any
number of different servants — shown concretely for two servants sharing
one copy — while (3) each servant still holds at most one item per slot
category. -/
theorem equip_inventory_frame (s : EquipState) (userId servantId : ℕ)
    (owner : Option ℕ) (item : Option Item) :
    (equip s userId servantId owner item).1.inventory = s.inventory ∧
    (∀ (equipped2 : List EquipRow) (nextId2 : ℕ),
      (equip ⟨s.inventory, equipped2, nextId2⟩ userId servantId owner item).2 =
        (equip s userId servantId owner item).2) ∧
    (idsOk s → atMostOnePerSlot s.equipped →
      atMostOnePerSlot (equip s userId servantId owner item).1.equipped) ∧
    ((equip (⟨[⟨7, 42, 1⟩], [], 0⟩ : EquipState) 7 1 (some 7)
        (some ⟨42, "weapon"⟩)).2 = true ∧
     (equip (equip (⟨[⟨7, 42, 1⟩], [], 0⟩ : EquipState) 7 1 (some 7)
        (some ⟨42, "weapon"⟩)).1 7 2 (some 7) (some ⟨42, "weapon"⟩)).2 = true ∧
     (equip (equip (⟨[⟨7, 42, 1⟩], [], 0⟩ : EquipState) 7 1 (some 7)
        (some ⟨42, "weapon"⟩)).1 7 2 (some 7) (some ⟨42, "weapon"⟩)).1 =
       ⟨[⟨7, 42, 1⟩], [⟨0, 1, 42, "weapon"⟩, ⟨1, 2, 42, "weapon"⟩], 2⟩) := by
  refine ⟨?_, ?_, ?_, ?_⟩
  · cases owner with
    | none => rfl
    | some o =>
      cases item with
      | none =>
        simp only [equip]
        split_ifs <;> rfl
      | some it =>
        simp only [equip]
        split_ifs <;> rfl
  · intro equipped2 nextId2
    cases owner with
    | none => rfl
    | some o =>
      cases item with
      | none =>
        simp only [equip]
        split_ifs <;> rfl
      | some it =>
        simp only [equip]
        dsimp only
        split_ifs <;> rfl
  · intro hids hslots
    cases owner with
    | none => exact hslots
    | some o =>
      cases item with
      | none =>
        simp only [equip]
        split_ifs <;> exact hslots
      | some it =>
        simp only [equip]
        split_ifs with ho hi
        · exact hslots
        · exact (equip_item_invariants s servantId it.id it.item_type
            hids hslots).2
        · exact hslots
  · exact ⟨by decide, by decide, by decide⟩

/-- Witness for C10: the two-servant scenario with all hypotheses
discharged at a concrete state. -/
theorem equip_inventory_frame_witness :
    idsOk (⟨[⟨7, 42, 1⟩], [], 0⟩ : EquipState) ∧
    atMostOnePerSlot (⟨[⟨7, 42, 1⟩], [], 0⟩ : EquipState).equipped ∧
    atMostOnePerSlot
      (equip (⟨[⟨7, 42, 1⟩], [], 0⟩ : EquipState) 7 1 (some 7)
        (some ⟨42, "weapon"⟩)).1.equipped :=
  ⟨⟨by decide, by decide⟩,
   (by intro r1 h1; exact absurd h1 (List.not_mem_nil r1)),
   (equip_inventory_frame (⟨[⟨7, 42, 1⟩], [], 0⟩ : EquipState) 7 1 (some 7)
       (some ⟨42, "weapon"⟩)).2.2.1 ⟨by decide, by decide⟩
     (by intro r1 h1; exact absurd h1 (List.not_mem_nil r1))⟩

/- ============================================================================
   Battle-accept cooldown check (`database.check_cooldown` lines 897-906,
   `ServantBattleSelect.callback` in src/bot.py lines 539-550)
   ============================================================================ -/

/-- `check_cooldown`: SELECT the expiry for (member, action type) with
`expires_at > now`; returns it when such a row exists, None otherwise.
`cooldowns` maps (member id, action type) to the stored expiry, if any. -/
def check_cooldown (cooldowns : ℕ → String → Option ℤ) (userId : ℕ)
    (action : String) (now : ℤ) : Option ℤ :=
  match cooldowns userId action with
  | some expiry => if expiry > now then some expiry else none
  | none => none

/-- `ServantBattleSelect.callback`: when the servant dropdown is used, the
code runs `check_cooldown(interaction.user.id, ..., "battle")` and aborts
when it returns an entry; otherwise the battle proceeds.  Returns whether
the battle goes ahead. -/
def servantBattleSelectCallback (challengerId opponentId interactionUserId : ℕ)
    (cooldowns : ℕ → String → Option ℤ) (now : ℤ) : Bool :=
  (check_cooldown cooldowns interactionUserId "battle" now).isNone

/-- The servant-selection dropdown is delivered in an ephemeral response to
the accepting opponent (the `accept_button` handler replies
`ephemeral=True` to `self.opponent_id`), so at selection time
`interaction.user` is the accepting opponent: the callback runs with
`interactionUserId = opponentId`. -/
def battleAcceptProceeds (challengerId opponentId : ℕ)
    (cooldowns : ℕ → String → Option ℤ) (now : ℤ) : Bool :=
  servantBattleSelectCallback challengerId opponentId opponentId cooldowns now

/-- A cooldown table in which only the challenger (member 1) has a "battle"
cooldown entry, expiring at time 100. -/
def challengerOnlyCooldowns : ℕ → String → Option ℤ :=
  fun userId action =>
    if userId = 1 ∧ action = "battle" then some 100 else none

/- ============================================================================
   Claim C8
   ============================================================================ -/

/-- Counterexample to claim C8 as stated: with challenger 1 holding a
"battle" cooldown that expires in the future (at 100, with now = 0) and
opponent 2 holding none, the accept-time check passes and the battle
proceeds — so the challenger's cooldown is not the one consulted; and
conversely, a table in which only the opponent has a future cooldown blocks
the battle. -/
theorem battle_accept_cooldown_counterexample :
    (check_cooldown challengerOnlyCooldowns 1 "battle" 0).isSome = true ∧
    battleAcceptProceeds 1 2 challengerOnlyCooldowns 0 = true ∧
    battleAcceptProceeds 2 1 challengerOnlyCooldowns 0 = false := by
  refine ⟨by decide, by decide, by decide⟩

/-- Claim C8, amended: the "battle" cooldown entry consulted and enforced
at battle-accept time is the accepting opponent's (the interacting user's),
not the challenger's: the battle proceeds exactly when the opponent has no
entry with a future expiry, and the outcome is unchanged under any
modification of the cooldown entries of users other than the opponent. -/
theorem battle_accept_cooldown_amended (challengerId opponentId : ℕ)
    (cooldowns : ℕ → String → Option ℤ) (now : ℤ) :
    (battleAcceptProceeds challengerId opponentId cooldowns now = true ↔
      ∀ expiry, cooldowns opponentId "battle" = some expiry → expiry ≤ now) ∧
    (∀ cooldowns2 : ℕ → String → Option ℤ,
      cooldowns2 opponentId "battle" = cooldowns opponentId "battle" →
      battleAcceptProceeds challengerId opponentId cooldowns2 now =
        battleAcceptProceeds challengerId opponentId cooldowns now) := by
  constructor
  · simp only [battleAcceptProceeds, servantBattleSelectCallback,
      check_cooldown]
    rcases hcd : cooldowns opponentId "battle" with - | expiry
    · simp
    · show (if expiry > now then some expiry else none).isNone = true ↔
        ∀ e, some expiry = some e → e ≤ now
      split_ifs with hgt
      · constructor
        · intro h
          simp at h
        · intro h
          exact absurd (h expiry rfl) (by omega)
      · constructor
        · intro h e he
          obtain rfl : expiry = e := by injection he
          omega
        · intro h
          rfl
  · intro cooldowns2 heq
    simp only [battleAcceptProceeds, servantBattleSelectCallback,
      check_cooldown, heq]

/-- Witness for C8 (amended): concrete instantiation with only the
challenger on cooldown. -/
theorem battle_accept_cooldown_amended_witness :
    (battleAcceptProceeds 1 2 challengerOnlyCooldowns 0 = true ↔
      ∀ expiry, challengerOnlyCooldowns 2 "battle" = some expiry →
        expiry ≤ 0) ∧
    (∀ cooldowns2 : ℕ → String → Option ℤ,
      cooldowns2 2 "battle" = challengerOnlyCooldowns 2 "battle" →
      battleAcceptProceeds 1 2 cooldowns2 0 =
        battleAcceptProceeds 1 2 challengerOnlyCooldowns 0) :=
  battle_accept_cooldown_amended 1 2 challengerOnlyCooldowns 0

/- ============================================================================
   Battle simulation (`simulate_battle`, src/bot.py lines 76-152)
   ============================================================================ -/

/-- A resolved stat block as passed to `simulate_battle` (the dict built by
`get_servant_stats`). -/
structure Fighter where
  name : String
  attack : ℤ
  defense : ℤ
  hp : ℤ
  speed : ℤ
  level : ℤ
deriving DecidableEq

/-- A stat block together with the `current_hp` key the simulation adds. -/
structure BattleSide where
  fighter : Fighter
  current_hp : ℤ
deriving DecidableEq

/-- The random draws one turn can consume: `variance` is
`random.uniform(0.8, 1.2)` and the two rolls are `random.random()`.  Python
floats are dyadic rationals, so drawing from ℚ covers every value the
interpreter can produce. -/
structure TurnRand where
  variance : ℚ
  critRoll : ℚ
  npRoll : ℚ
deriving DecidableEq

/-- `crit_chance = 0.1 + (attacker['level'] * 0.01)`. -/
def crit_chance (level : ℤ) : ℚ := 1/10 + level * (1/100)

/-- The damage computation of one attack:
`base_damage = max(1, attacker['attack'] - (defender['defense'] // 2))`
(Python `//` is floor division, `Int.fdiv`), then
`damage = int(base_damage * variance)`, then on a critical hit
`damage = int(damage * 1.5)`.  The `max(1, ...)` floor is applied to the
base damage, before the variance multiplier and the truncations. -/
def turnDamage (attack defense : ℤ) (variance : ℚ) (isCrit : Bool) : ℤ :=
  let base : ℤ := max 1 (attack - Int.fdiv defense 2)
  let dmg := pyIntQ ((base : ℚ) * variance)
  if isCrit then pyIntQ ((dmg : ℚ) * (3/2)) else dmg

/-- One turn of the loop body: the attacker deals `turnDamage` to the
defender; then, if the defender's health has fallen below half its maximum
(`defender['current_hp'] < defender['hp'] * 0.5`, exact in binary64 for
integer health), a Noble Phantasm roll below 0.15 deals `attacker.attack`
extra damage.  Returns the updated defender. -/
def stepTurn (attacker defender : BattleSide) (r : TurnRand) : BattleSide :=
  let isCrit := r.critRoll < crit_chance attacker.fighter.level
  let damage := turnDamage attacker.fighter.attack defender.fighter.defense
    r.variance isCrit
  let d1 : BattleSide := { defender with current_hp := defender.current_hp - damage }
  if (d1.current_hp : ℚ) < (d1.fighter.hp : ℚ) * (1/2) then
    if r.npRoll < 15/100 then
      { d1 with current_hp := d1.current_hp - attacker.fighter.attack }
    else d1
  else d1

/-- The turn loop of `simulate_battle`:
`while s1['current_hp'] > 0 and s2['current_hp'] > 0 and turn < max_turns`,
with `max_turns = 30` and strict attacker/defender alternation.  `turn` is
the number of completed turns and `fuel = 30 - turn` the remaining turn
budget, so the loop guard `turn < 30` is exactly `fuel > 0`; the draws of
turn number n are `rolls n`. -/
def battleLoop (rolls : ℕ → TurnRand) :
    ℕ → ℕ → BattleSide → BattleSide → Bool → BattleSide × BattleSide
  | 0, _, s1, s2, _ => (s1, s2)
  | fuel + 1, turn, s1, s2, attackerIsS1 =>
    if s1.current_hp > 0 ∧ s2.current_hp > 0 then
      if attackerIsS1 then
        battleLoop rolls fuel (turn + 1) s1 (stepTurn s1 s2 (rolls (turn + 1))) false
      else
        battleLoop rolls fuel (turn + 1) (stepTurn s2 s1 (rolls (turn + 1))) s2 true
    else (s1, s2)

/-- `simulate_battle`: initialize both sides' current health to max health,
give the first attack to `s1` exactly when `s1['speed'] >= s2['speed']`,
run the loop, and declare as winner the side picked by
`if s1['current_hp'] > s2['current_hp']` — the second side on ties.
Returns `(winner, loser)`. -/
def simulate_battle (f1 f2 : Fighter) (rolls : ℕ → TurnRand) :
    BattleSide × BattleSide :=
  let final := battleLoop rolls 30 0 ⟨f1, f1.hp⟩ ⟨f2, f2.hp⟩
    (if f1.speed ≥ f2.speed then true else false)
  if final.1.current_hp > final.2.current_hp then (final.1, final.2)
  else (final.2, final.1)

/- ============================================================================
   Claim C3
   ============================================================================ -/

/-- Claim C3: for every pair of stat blocks and every sequence of random
draws, `simulate_battle` declares as winner the side whose current health
at loop exit is strictly greater than the other's; when both residual
health values are exactly equal, the second-positional side is declared
the winner. -/
theorem simulate_battle_winner (f1 f2 : Fighter) (rolls : ℕ → TurnRand)
    (e1 e2 : BattleSide)
    (hrun : battleLoop rolls 30 0 ⟨f1, f1.hp⟩ ⟨f2, f2.hp⟩
      (if f1.speed ≥ f2.speed then true else false) = (e1, e2)) :
    (e1.current_hp > e2.current_hp → simulate_battle f1 f2 rolls = (e1, e2)) ∧
    (e1.current_hp ≤ e2.current_hp → simulate_battle f1 f2 rolls = (e2, e1)) ∧
    (e1.current_hp = e2.current_hp → (simulate_battle f1 f2 rolls).1 = e2) := by
  simp only [simulate_battle, hrun]
  refine ⟨?_, ?_, ?_⟩
  · intro h
    rw [if_pos h]
  · intro h
    rw [if_neg (by omega)]
  · intro h
    rw [if_neg (by omega)]

/-- Constant draw sequence for witnesses. -/
def constRolls : ℕ → TurnRand := fun _ => ⟨1, 1, 1⟩

/-- Witness for C3: two zero-health fighters exit the loop immediately with
equal residual health, and the second-positional side is the winner. -/
theorem simulate_battle_winner_witness :
    battleLoop constRolls 30 0 ⟨⟨"A", 5, 0, 0, 1, 0⟩, 0⟩ ⟨⟨"B", 5, 0, 0, 1, 0⟩, 0⟩
      (if (5 : ℤ) ≥ 5 then true else false) =
      (⟨⟨"A", 5, 0, 0, 1, 0⟩, 0⟩, ⟨⟨"B", 5, 0, 0, 1, 0⟩, 0⟩) ∧
    (simulate_battle ⟨"A", 5, 0, 0, 1, 0⟩ ⟨"B", 5, 0, 0, 1, 0⟩ constRolls).1 =
      ⟨⟨"B", 5, 0, 0, 1, 0⟩, 0⟩ :=
  ⟨by decide,
   (simulate_battle_winner ⟨"A", 5, 0, 0, 1, 0⟩ ⟨"B", 5, 0, 0, 1, 0⟩ constRolls
      ⟨⟨"A", 5, 0, 0, 1, 0⟩, 0⟩ ⟨⟨"B", 5, 0, 0, 1, 0⟩, 0⟩ (by decide)).2.2 rfl⟩

/- ============================================================================
   Claim C9
   ============================================================================ -/

/-- Claim C9: the `max(1, attack − defense//2)` floor is applied to the
base damage before the random variance multiplier and the `int`
truncation; concretely, with attack 10 against defense 20 the base damage
is floored to 1, and a variance draw of 0.8 < 1.0 truncates the damage to
0, so a whole turn leaves the defender's health unchanged — a per-turn
minimum of 1 damage is not guaranteed. -/
theorem turn_damage_can_be_zero :
    max 1 ((10 : ℤ) - Int.fdiv 20 2) = 1 ∧
    (4/5 : ℚ) < 1 ∧
    turnDamage 10 20 (4/5) false = 0 ∧
    (stepTurn ⟨⟨"A", 10, 0, 100, 5, 0⟩, 100⟩ ⟨⟨"B", 0, 20, 100, 1, 0⟩, 100⟩
      ⟨4/5, 1, 1⟩).current_hp = 100 := by
  have hf : Int.fdiv 20 2 = 10 := by decide
  have hbase : max 1 ((10 : ℤ) - Int.fdiv 20 2) = 1 := by rw [hf]; decide
  have hdmg : turnDamage 10 20 (4/5) false = 0 := by
    simp only [turnDamage, hbase, pyIntQ]
    norm_num
  refine ⟨hbase, by norm_num, hdmg, ?_⟩
  have hcrit : ¬((1 : ℚ) < crit_chance 0) := by
    simp only [crit_chance]
    norm_num
  simp only [stepTurn, hcrit, if_false, crit_chance]
  norm_num [hdmg]

/- ============================================================================
   ELO rating delta (`calculate_elo_change`, src/bot.py lines 51-55)
   ============================================================================ -/

/-- Python `int()` applied to a real value: truncation toward zero. -/
noncomputable def pyIntR (x : ℝ) : ℤ := if 0 ≤ x then ⌊x⌋ else ⌈x⌉

/-- `calculate_elo_change`:
`k_factor = 32`,
`expected_score = 1 / (1 + 10 ** ((loser_elo - winner_elo) / 400))`,
`return max(int(k_factor * (1 - expected_score)), 5)`.
The binary64 computation is modelled in exact real arithmetic; at every
value evaluated below the quantity is far from an integer boundary relative
to binary64 rounding error, so the model agrees with the float code. -/
noncomputable def calculate_elo_change (winner_elo loser_elo : ℤ) : ℤ :=
  max (pyIntR (32 * (1 - 1 / (1 +
    (10:ℝ) ^ (((loser_elo : ℝ) - (winner_elo : ℝ)) / 400))))) 5

/-- The delta exactly as claim C1 states it, with `round` (to nearest)
where the code truncates with `int`. -/
noncomputable def eloDeltaClaimed (winner_elo loser_elo : ℤ) : ℤ :=
  max (round (32 * (1 - 1 / (1 +
    (10:ℝ) ^ (((loser_elo : ℝ) - (winner_elo : ℝ)) / 400))))) 5

/-- The quantity `32 * (1 - expected)` is non-negative: the expected score
lies in (0, 1). -/
theorem eloValue_nonneg (t : ℝ) : 0 ≤ 32 * (1 - 1 / (1 + (10:ℝ) ^ t)) := by
  have hx : (0:ℝ) < (10:ℝ) ^ t := Real.rpow_pos_of_pos (by norm_num) t
  have h1 : 1 / (1 + (10:ℝ) ^ t) ≤ 1 := by
    rw [div_le_one (by linarith)]
    linarith
  linarith

/- ============================================================================
   Claim C1
   ============================================================================ -/

/-- Counterexample to claim C1 as stated: at winnerRating 1000 and
loserRating 1020 the real value 32 × (1 − expected) lies in [16.5, 17), so
the code's `int` truncation yields delta 16 while the formula of the claim,
with `round`, yields 17. -/
theorem elo_round_counterexample :
    calculate_elo_change 1000 1020 = 16 ∧ eloDeltaClaimed 1000 1020 = 17 := by
  have ht : (((1020:ℤ) : ℝ) - ((1000:ℤ) : ℝ)) / 400 = 1/20 := by
    push_cast
    norm_num
  have hxpos : (0:ℝ) < (10:ℝ) ^ ((1:ℝ)/20) := Real.rpow_pos_of_pos (by norm_num) _
  have hx20 : ((10:ℝ) ^ ((1:ℝ)/20)) ^ (20:ℕ) = 10 := by
    rw [← Real.rpow_natCast ((10:ℝ) ^ ((1:ℝ)/20)) 20,
      ← Real.rpow_mul (by norm_num)]
    norm_num
  have hlo : (33:ℝ)/31 ≤ (10:ℝ) ^ ((1:ℝ)/20) := by
    by_contra h
    push_neg at h
    have h2 : ((10:ℝ) ^ ((1:ℝ)/20)) ^ (20:ℕ) < ((33:ℝ)/31) ^ (20:ℕ) :=
      pow_lt_pow_left₀ h hxpos.le (by norm_num)
    rw [hx20] at h2
    have h3 : ((33:ℝ)/31) ^ (20:ℕ) ≤ 10 := by norm_num
    linarith
  have hhi : (10:ℝ) ^ ((1:ℝ)/20) < 17/15 := by
    by_contra h
    push_neg at h
    have h2 : ((17:ℝ)/15) ^ (20:ℕ) ≤ ((10:ℝ) ^ ((1:ℝ)/20)) ^ (20:ℕ) :=
      pow_le_pow_left₀ (by norm_num) h 20
    rw [hx20] at h2
    have h3 : (10:ℝ) < ((17:ℝ)/15) ^ (20:ℕ) := by norm_num
    linarith
  have h1x : (0:ℝ) < 1 + (10:ℝ) ^ ((1:ℝ)/20) := by linarith
  have heq : 32 * (1 - 1 / (1 + (10:ℝ) ^ ((1:ℝ)/20))) =
      32 - 32 / (1 + (10:ℝ) ^ ((1:ℝ)/20)) := by ring
  have hv1 : (33:ℝ)/2 ≤ 32 * (1 - 1 / (1 + (10:ℝ) ^ ((1:ℝ)/20))) := by
    have hd : 32 / (1 + (10:ℝ) ^ ((1:ℝ)/20)) ≤ 31/2 := by
      rw [div_le_iff₀ h1x]
      linarith
    linarith
  have hv2 : 32 * (1 - 1 / (1 + (10:ℝ) ^ ((1:ℝ)/20))) < 17 := by
    have hd : (15:ℝ) < 32 / (1 + (10:ℝ) ^ ((1:ℝ)/20)) := by
      rw [lt_div_iff₀ h1x]
      linarith
    linarith
  constructor
  · unfold calculate_elo_change
    rw [ht]
    unfold pyIntR
    rw [if_pos (by linarith)]
    have hfl : ⌊32 * (1 - 1 / (1 + (10:ℝ) ^ ((1:ℝ)/20)))⌋ = 16 := by
      rw [Int.floor_eq_iff]
      constructor <;> push_cast <;> linarith
    rw [hfl]
    decide
  · unfold eloDeltaClaimed
    rw [ht]
    have hrd : round (32 * (1 - 1 / (1 + (10:ℝ) ^ ((1:ℝ)/20)))) = 17 := by
      rw [round_eq, Int.floor_eq_iff]
      constructor <;> push_cast <;> linarith
    rw [hrd]
    decide

/-- Claim C1, amended: the delta equals
`max(trunc(32 × (1 − expected)), 5)` where the code's `int` truncates
toward zero (equivalently floors, the value being non-negative) rather
than rounding to nearest; the delta is always ≥ 5, it is 5 for
winnerRating 2000 / loserRating 1000, and 16 for equal ratings 1000. -/
theorem calculate_elo_change_spec :
    (∀ w l : ℤ, 5 ≤ calculate_elo_change w l) ∧
    calculate_elo_change 2000 1000 = 5 ∧
    calculate_elo_change 1000 1000 = 16 ∧
    (∀ w l : ℤ, calculate_elo_change w l =
      max ⌊32 * (1 - 1 / (1 + (10:ℝ) ^ (((l : ℝ) - (w : ℝ)) / 400)))⌋ 5) := by
  refine ⟨fun w l => le_max_right _ 5, ?_, ?_, fun w l => ?_⟩
  · have ht : (((1000:ℤ) : ℝ) - ((2000:ℤ) : ℝ)) / 400 = -(5/2) := by
      push_cast
      norm_num
    have hxpos : (0:ℝ) < (10:ℝ) ^ (-(5/2) : ℝ) :=
      Real.rpow_pos_of_pos (by norm_num) _
    have hx2 : ((10:ℝ) ^ (-(5/2) : ℝ)) ^ (2:ℕ) = 1/100000 := by
      rw [← Real.rpow_natCast ((10:ℝ) ^ (-(5/2) : ℝ)) 2,
        ← Real.rpow_mul (by norm_num)]
      rw [show (-(5/2) * ((2:ℕ) : ℝ) : ℝ) = ((-5 : ℤ) : ℝ) by push_cast; ring]
      rw [Real.rpow_intCast]
      norm_num
    have hxlt : (10:ℝ) ^ (-(5/2) : ℝ) < 3/13 := by
      by_contra h
      push_neg at h
      nlinarith
    have h1x : (0:ℝ) < 1 + (10:ℝ) ^ (-(5/2) : ℝ) := by linarith
    have hvlt : 32 * (1 - 1 / (1 + (10:ℝ) ^ (-(5/2) : ℝ))) < 6 := by
      have hd : (26:ℝ) < 32 / (1 + (10:ℝ) ^ (-(5/2) : ℝ)) := by
        rw [lt_div_iff₀ h1x]
        linarith
      have heq : 32 * (1 - 1 / (1 + (10:ℝ) ^ (-(5/2) : ℝ))) =
          32 - 32 / (1 + (10:ℝ) ^ (-(5/2) : ℝ)) := by ring
      linarith
    unfold calculate_elo_change
    rw [ht]
    unfold pyIntR
    rw [if_pos (eloValue_nonneg _)]
    have hfl : ⌊32 * (1 - 1 / (1 + (10:ℝ) ^ (-(5/2) : ℝ)))⌋ < 6 := by
      rw [Int.floor_lt]
      push_cast
      linarith
    rw [max_eq_right (by omega)]
  · have ht : (((1000:ℤ) : ℝ) - ((1000:ℤ) : ℝ)) / 400 = 0 := by norm_num
    unfold calculate_elo_change
    rw [ht, Real.rpow_zero]
    have hv : 32 * (1 - 1 / (1 + (1:ℝ))) = 16 := by norm_num
    rw [hv]
    unfold pyIntR
    rw [if_pos (by norm_num)]
    have hfl : ⌊(16:ℝ)⌋ = 16 := by norm_num
    rw [hfl]
    decide
  · unfold calculate_elo_change pyIntR
    rw [if_pos (eloValue_nonneg _)]
